import Mathlib

/-!
Verification of the scrcpy-restream network adapters: the TCP video packet
sink (src/app/src/tcp_sink.c) and the control forwarder
(src/app/src/control_forwarder.c).

The C code is shallowly embedded:
* an AVPacket is modelled by its presentation timestamp (with the
  AV_NOPTS_VALUE sentinel modelled as `none`), its keyframe flag and its
  payload bytes; `packet->size` is the payload length;
* machine integers are Nat / Int with explicit reductions modulo 2 ^ w at
  the points where the C code truncates (sc_write32be / sc_write64be and
  the (uint64_t) cast of the int64_t pts);
* the sink struct `sc_tcp_sink` keeps the fields the claims are about;
  `client_socket != SC_SOCKET_NONE` is modelled by the boolean
  `client_connected`, and calls to sc_cond_signal are counted in the ghost
  field `cond_signals`;
* the two fallible allocations of sc_tcp_sink_packet_sink_push
  (sc_tcp_sink_packet_ref for the config cache, sc_tcp_sink_packet_ref for
  the queued copy) and the fallible sc_vecdeque_push are given explicit
  success oracles, so every branch of the C function is reachable;
* the worker thread run_tcp_sink together with the push path is modelled
  by a serialized event trace (every shared-state access in the C code is
  under one mutex, so any concurrent execution is equivalent to a serial
  interleaving of these events).
-/

/-- Model of an AVPacket: pts (`none` is AV_NOPTS_VALUE), the
AV_PKT_FLAG_KEY flag, and the payload bytes (each byte < 256). -/
structure AVPacketM where
  pts : Option Int
  isKey : Bool
  data : List Nat
  deriving DecidableEq, Repr

/-- Model of the AVCodecID enum: the two cases the switch in
sc_tcp_sink_packet_sink_open recognizes, and `other n` for every further
enum value (the default branch). -/
inductive AVCodecID where
  | h264 : AVCodecID
  | hevc : AVCodecID
  | other : Nat → AVCodecID
  deriving DecidableEq, Repr

/-- Model of struct sc_tcp_sink (tcp_sink.h): the fields relevant to the
claims. `client_connected` stands for `client_socket != SC_SOCKET_NONE`;
`cond_signals` counts the sc_cond_signal calls. -/
structure ScTcpSink where
  port : Nat
  stopped : Bool
  codec_sent : Bool
  codec_id : Nat
  width : Nat
  height : Nat
  config_packet : Option AVPacketM
  client_connected : Bool
  queue : List AVPacketM
  cond_signals : Nat
  deriving DecidableEq, Repr

/-- SC_CODEC_ID_H264, the ASCII tag h264 as a big-endian 32-bit value. -/
def SC_CODEC_ID_H264 : Nat := 0x68323634

/-- SC_CODEC_ID_H265, the ASCII tag h265 as a big-endian 32-bit value. -/
def SC_CODEC_ID_H265 : Nat := 0x68323635

/-- SC_PACKET_FLAG_CONFIG, bit 63 of the pts_flags word. -/
def SC_PACKET_FLAG_CONFIG : Nat := 2 ^ 63

/-- SC_PACKET_FLAG_KEY_FRAME, bit 62 of the pts_flags word. -/
def SC_PACKET_FLAG_KEY_FRAME : Nat := 2 ^ 62

/-- sc_write32be: the four bytes of the low 32 bits of n, most significant
first. -/
def writeBe32 (n : Nat) : List Nat :=
  [n / 2 ^ 24 % 256, n / 2 ^ 16 % 256, n / 2 ^ 8 % 256, n % 256]

/-- sc_write64be: the eight bytes of the low 64 bits of n, most significant
first. -/
def writeBe64 (n : Nat) : List Nat :=
  [n / 2 ^ 56 % 256, n / 2 ^ 48 % 256, n / 2 ^ 40 % 256, n / 2 ^ 32 % 256,
   n / 2 ^ 24 % 256, n / 2 ^ 16 % 256, n / 2 ^ 8 % 256, n % 256]

/-- The C cast (uint64_t) applied to an int64_t value. -/
def u64ofInt (t : Int) : Nat := (t % (2 ^ 64 : Int)).toNat

/-- The pts_flags word built by sc_tcp_sink_send_packet: 1 << 63 for a
packet with no pts, otherwise the pts cast to uint64_t, with bit 62 or-ed
in when AV_PKT_FLAG_KEY is set. -/
def ptsFlagsOf (p : AVPacketM) : Nat :=
  match p.pts with
  | none => SC_PACKET_FLAG_CONFIG
  | some t =>
      if p.isKey then u64ofInt t ||| SC_PACKET_FLAG_KEY_FRAME
      else u64ofInt t

/-- The bytes sc_tcp_sink_send_packet writes for one packet: the 12-byte
header (pts_flags as 64-bit big-endian, then the payload size as 32-bit
big-endian) followed by the payload. -/
def frameBytes (p : AVPacketM) : List Nat :=
  writeBe64 (ptsFlagsOf p) ++ writeBe32 p.data.length ++ p.data

/-- The bytes sc_tcp_sink_send_codec_info writes: codec_id, width and
height, each as 32-bit big-endian (sent as one 4-byte and one 8-byte
net_send_all, which concatenate on the wire). -/
def codecInfoBytes (s : ScTcpSink) : List Nat :=
  writeBe32 s.codec_id ++ writeBe32 s.width ++ writeBe32 s.height

/-- sc_tcp_sink_init: the field initialization (codec_id, width and height
are left uninitialized by the C function; the model sets them to 0). -/
def sc_tcp_sink_init (port : Nat) : ScTcpSink :=
  { port := port
    stopped := false
    codec_sent := false
    codec_id := 0
    width := 0
    height := 0
    config_packet := none
    client_connected := false
    queue := []
    cond_signals := 0 }

/-- sc_tcp_sink_packet_sink_open: the switch on ctx codec_id sets codec_id
for H264 / HEVC and returns false on any other value before touching the
remaining fields; on success it records width and height, sets codec_sent
and signals the condition variable. -/
def sc_tcp_sink_packet_sink_open (s : ScTcpSink) (codec : AVCodecID)
    (w h : Nat) : Bool × ScTcpSink :=
  match codec with
  | .h264 =>
      (true, { s with codec_id := SC_CODEC_ID_H264, width := w, height := h,
                      codec_sent := true, cond_signals := s.cond_signals + 1 })
  | .hevc =>
      (true, { s with codec_id := SC_CODEC_ID_H265, width := w, height := h,
                      codec_sent := true, cond_signals := s.cond_signals + 1 })
  | .other _ => (false, s)

/-- sc_tcp_sink_packet_sink_push. The three oracles stand for the success
of sc_tcp_sink_packet_ref for the config cache, of sc_tcp_sink_packet_ref
for the queued copy, and of sc_vecdeque_push. The config branch frees the
previous cache and stores the new ref (NULL, i.e. `none`, when the ref
fails); with no client connected the packet is dropped and true returned;
otherwise the copy is enqueued and the condition variable signaled. -/
def sc_tcp_sink_packet_sink_push (s : ScTcpSink) (packet : AVPacketM)
    (configRefOk queueRefOk enqueueOk : Bool) : Bool × ScTcpSink :=
  if s.stopped then (false, s)
  else
    let s1 := if packet.pts = none then
        { s with config_packet := if configRefOk then some packet else none }
      else s
    if s1.client_connected = false then (true, s1)
    else if queueRefOk = false then (false, s1)
    else if enqueueOk = false then (false, s1)
    else (true, { s1 with queue := s1.queue ++ [packet],
                          cond_signals := s1.cond_signals + 1 })

/-- One client session of run_tcp_sink, as seen on the wire. `header` and
`configFrame` are the bytes written right after accept (codec header,
then the cached config frame or nothing); `body` collects the bytes the
stream loop writes afterwards. `queuedAtAccept` and `pushedSince` are
ghost fields recording the queue content when this accept completed and
the packets enqueued by push while this client was connected. -/
structure ClientSession where
  header : List Nat
  configFrame : List Nat
  body : List Nat
  queuedAtAccept : List AVPacketM
  pushedSince : List AVPacketM
  deriving DecidableEq, Repr

/-- State of the serialized trace semantics: the sink struct plus the
client sessions, most recent first. -/
structure TraceState where
  sink : ScTcpSink
  sessions : List ClientSession
  deriving DecidableEq, Repr

/-- Events of the serialized semantics of tcp_sink.c. evOpen and evPush
are the upstream capability calls; evAccept is the worker accepting a
client and writing the codec header plus cached config frame (taken when
codec_sent already holds, matching the fast path at lines 136-157 and the
post-wait path); evServe is one successful iteration of the stream loop
(pop one packet, send its frame); evServeFail k is an iteration whose
net_send_all fails after k bytes of the frame reached the wire, upon
which the worker closes the client. -/
inductive Ev where
  | evOpen : AVCodecID → Nat → Nat → Ev
  | evPush : AVPacketM → Bool → Bool → Bool → Ev
  | evAccept : Ev
  | evServe : Ev
  | evServeFail : Nat → Ev
  deriving DecidableEq, Repr

/-- Condition under which sc_tcp_sink_packet_sink_push actually enqueues
the packet: not stopped, a client connected, and both the ref and the
vecdeque push succeed. -/
def pushEnqueues (s : ScTcpSink) (queueRefOk enqueueOk : Bool) : Bool :=
  !s.stopped && s.client_connected && queueRefOk && enqueueOk

/-- Ghost bookkeeping: record an enqueued packet in the current (head)
session. -/
def recordPush : List ClientSession → AVPacketM → List ClientSession
  | [], _ => []
  | S :: tl, p => { S with pushedSince := S.pushedSince ++ [p] } :: tl

/-- Append bytes to the body of the current (head) session. -/
def appendBody : List ClientSession → List Nat → List ClientSession
  | [], _ => []
  | S :: tl, bs => { S with body := S.body ++ bs } :: tl

/-- The session created when accept completes: run_tcp_sink sends the
codec header, then the cached config packet as one frame if present; the
ghost fields snapshot the queue. -/
def newSession (s : ScTcpSink) : ClientSession :=
  { header := codecInfoBytes s
    configFrame := match s.config_packet with
      | some c => frameBytes c
      | none => []
    body := []
    queuedAtAccept := s.queue
    pushedSince := [] }

/-- One step of the serialized semantics of tcp_sink.c. -/
def stepEv (st : TraceState) (e : Ev) : TraceState :=
  match e with
  | .evOpen c w h =>
      { st with sink := (sc_tcp_sink_packet_sink_open st.sink c w h).2 }
  | .evPush p cfgOk qOk eOk =>
      let s2 := (sc_tcp_sink_packet_sink_push st.sink p cfgOk qOk eOk).2
      if pushEnqueues st.sink qOk eOk then
        { sink := s2, sessions := recordPush st.sessions p }
      else
        { st with sink := s2 }
  | .evAccept =>
      if st.sink.client_connected = false ∧ st.sink.codec_sent = true then
        { sink := { st.sink with client_connected := true },
          sessions := newSession st.sink :: st.sessions }
      else st
  | .evServe =>
      match st.sink.client_connected, st.sink.queue with
      | true, p :: rest =>
          { sink := { st.sink with queue := rest },
            sessions := appendBody st.sessions (frameBytes p) }
      | _, _ => st
  | .evServeFail k =>
      match st.sink.client_connected, st.sink.queue with
      | true, p :: rest =>
          { sink := { st.sink with queue := rest, client_connected := false },
            sessions := appendBody st.sessions ((frameBytes p).take k) }
      | _, _ => st

/-- Run a trace of events from a freshly initialized sink. -/
def runTrace (evs : List Ev) : TraceState :=
  evs.foldl stepEv { sink := sc_tcp_sink_init 27183, sessions := [] }

/-- The full framed stream a session may legitimately carry in its body:
the frames of the packets still queued when its accept completed,
followed by the frames of the packets enqueued while it was connected. -/
def sessionTarget (S : ClientSession) : List Nat :=
  List.flatten (List.map frameBytes (S.queuedAtAccept ++ S.pushedSince))

/-- Result of one net_recv call in run_control_forwarder: a chunk of
bytes (r > 0), end of stream (r = 0), or an error (r < 0). -/
inductive RecvResult where
  | chunk : List Nat → RecvResult
  | closed : RecvResult
  | err : RecvResult
  deriving DecidableEq, Repr

/-- The bytes run_control_forwarder writes to the controller control
socket during one client session, given the sequence of net_recv results:
each received chunk is handed unmodified to net_send_all; the loop ends
at r <= 0. -/
def run_control_forwarder : List RecvResult → List Nat
  | [] => []
  | .chunk b :: rest => b ++ run_control_forwarder rest
  | .closed :: _ => []
  | .err :: _ => []

/-- SC_CONTROL_MSG_MAX_SIZE, the forwarder receive buffer size. -/
def SC_CONTROL_MSG_MAX_SIZE : Nat := 256

/-- A session is well-formed when its body is a prefix (stated as an
explicit append decomposition) of the frames of the packets queued at its
accept followed by the packets enqueued while it was connected. -/
def SessionOK (S : ClientSession) : Prop :=
  ∃ rest, S.body ++ rest = sessionTarget S

/-- While a client is connected, the head session body together with the
frames of the packets still queued is exactly the session target. -/
def HeadExact (st : TraceState) : Prop :=
  st.sink.client_connected = true →
    ∃ S tl, st.sessions = S :: tl ∧
      S.body ++ List.flatten (List.map frameBytes st.sink.queue) =
        sessionTarget S

/-- Trace invariant: every session is well-formed, and the connected head
session is exact. -/
def TraceInv (st : TraceState) : Prop :=
  (∀ S ∈ st.sessions, SessionOK S) ∧ HeadExact st

theorem push_snd_queue (s : ScTcpSink) (p : AVPacketM)
    (a b c : Bool) :
    (sc_tcp_sink_packet_sink_push s p a b c).2.queue =
      if pushEnqueues s b c then s.queue ++ [p] else s.queue := by
  unfold sc_tcp_sink_packet_sink_push pushEnqueues
  by_cases hs : s.stopped <;>
    by_cases hp : p.pts = none <;>
      by_cases hc : s.client_connected <;>
        by_cases hb : b <;>
          by_cases hcq : c <;>
            simp [hs, hp, hc, hb, hcq]

theorem push_snd_client (s : ScTcpSink) (p : AVPacketM)
    (a b c : Bool) :
    (sc_tcp_sink_packet_sink_push s p a b c).2.client_connected =
      s.client_connected := by
  unfold sc_tcp_sink_packet_sink_push
  by_cases hs : s.stopped <;>
    by_cases hp : p.pts = none <;>
      by_cases hc : s.client_connected <;>
        by_cases hb : b <;>
          by_cases hcq : c <;>
            simp [hs, hp, hc, hb, hcq]

theorem open_snd_queue (s : ScTcpSink) (codec : AVCodecID) (w h : Nat) :
    (sc_tcp_sink_packet_sink_open s codec w h).2.queue = s.queue := by
  cases codec <;> rfl

theorem open_snd_client (s : ScTcpSink) (codec : AVCodecID) (w h : Nat) :
    (sc_tcp_sink_packet_sink_open s codec w h).2.client_connected =
      s.client_connected := by
  cases codec <;> rfl

theorem sessionTarget_recordPush (S : ClientSession) (p : AVPacketM) :
    sessionTarget { S with pushedSince := S.pushedSince ++ [p] } =
      sessionTarget S ++ frameBytes p := by
  simp [sessionTarget]

theorem sessionTarget_body_irrel (S : ClientSession) (bs : List Nat) :
    sessionTarget { S with body := bs } = sessionTarget S := rfl

theorem stepEv_preserves (st : TraceState) (e : Ev) (h : TraceInv st) :
    TraceInv (stepEv st e) := by
  obtain ⟨hall, hhead⟩ := h
  cases e with
  | evOpen c w hh =>
      refine ⟨?_, ?_⟩
      · intro S hS
        exact hall S hS
      · intro hc
        simp only [stepEv] at hc ⊢
        rw [open_snd_client] at hc
        obtain ⟨S, tl, hsess, hEq⟩ := hhead hc
        exact ⟨S, tl, hsess, by rw [open_snd_queue]; exact hEq⟩
  | evPush p cfgOk qOk eOk =>
      by_cases hpe : pushEnqueues st.sink qOk eOk = true
      · have hconn : st.sink.client_connected = true := by
          simp only [pushEnqueues, Bool.and_eq_true] at hpe
          exact hpe.1.1.2
        obtain ⟨S, tl, hsess, hEq⟩ := hhead hconn
        simp only [stepEv, hpe, if_true]
        constructor
        · intro T hT
          rw [hsess] at hT
          simp only [recordPush] at hT
          rcases List.mem_cons.mp hT with h1 | h2
          · refine ⟨List.flatten (List.map frameBytes st.sink.queue) ++
              frameBytes p, ?_⟩
            rw [h1]
            simp only [sessionTarget_recordPush]
            rw [← List.append_assoc]
            rw [hEq]
          · exact hall T (by rw [hsess]; exact List.mem_cons_of_mem _ h2)
        · intro _
          refine ⟨{ S with pushedSince := S.pushedSince ++ [p] }, tl, ?_, ?_⟩
          · rw [hsess]; simp [recordPush]
          · rw [push_snd_queue, if_pos hpe]
            simp only [sessionTarget_recordPush, List.map_append,
              List.flatten_append, List.map_cons, List.map_nil,
              List.flatten_cons, List.flatten_nil, List.append_nil]
            rw [← List.append_assoc, hEq]
      · simp only [stepEv, hpe, if_false, Bool.false_eq_true]
        refine ⟨hall, ?_⟩
        intro hc
        simp only at hc
        rw [push_snd_client] at hc
        obtain ⟨S, tl, hsess, hEq⟩ := hhead hc
        refine ⟨S, tl, hsess, ?_⟩
        rw [push_snd_queue]
        simp only [hpe, if_false, Bool.false_eq_true]
        exact hEq
  | evAccept =>
      by_cases hcond : st.sink.client_connected = false ∧
          st.sink.codec_sent = true
      · simp only [stepEv, if_pos hcond]
        constructor
        · intro T hT
          rcases List.mem_cons.mp hT with h1 | h2
          · refine ⟨List.flatten (List.map frameBytes st.sink.queue), ?_⟩
            rw [h1]
            simp [newSession, sessionTarget]
          · exact hall T h2
        · intro _
          refine ⟨newSession st.sink, st.sessions, rfl, ?_⟩
          simp [newSession, sessionTarget]
      · simp only [stepEv, if_neg hcond]
        exact ⟨hall, hhead⟩
  | evServe =>
      cases hc : st.sink.client_connected with
      | false =>
          simp only [stepEv, hc]
          exact ⟨hall, hhead⟩
      | true =>
          cases hq : st.sink.queue with
          | nil =>
              simp only [stepEv, hc, hq]
              exact ⟨hall, hhead⟩
          | cons p rest =>
              obtain ⟨S, tl, hsess, hEq⟩ := hhead hc
              rw [hq] at hEq
              simp only [List.map_cons, List.flatten_cons] at hEq
              simp only [stepEv, hc, hq]
              constructor
              · intro T hT
                rw [hsess] at hT
                simp only [appendBody] at hT
                rcases List.mem_cons.mp hT with h1 | h2
                · refine ⟨List.flatten (List.map frameBytes rest), ?_⟩
                  rw [h1]
                  simp only [sessionTarget_body_irrel]
                  rw [List.append_assoc]
                  exact hEq
                · exact hall T (by rw [hsess]; exact List.mem_cons_of_mem _ h2)
              · intro _
                refine ⟨{ S with body := S.body ++ frameBytes p }, tl, ?_, ?_⟩
                · rw [hsess]; simp [appendBody]
                · simp only [sessionTarget_body_irrel]
                  rw [List.append_assoc]
                  exact hEq
  | evServeFail k =>
      cases hc : st.sink.client_connected with
      | false =>
          simp only [stepEv, hc]
          exact ⟨hall, hhead⟩
      | true =>
          cases hq : st.sink.queue with
          | nil =>
              simp only [stepEv, hc, hq]
              exact ⟨hall, hhead⟩
          | cons p rest =>
              obtain ⟨S, tl, hsess, hEq⟩ := hhead hc
              rw [hq] at hEq
              simp only [List.map_cons, List.flatten_cons] at hEq
              simp only [stepEv, hc, hq]
              constructor
              · intro T hT
                rw [hsess] at hT
                simp only [appendBody] at hT
                rcases List.mem_cons.mp hT with h1 | h2
                · refine ⟨(frameBytes p).drop k ++
                    List.flatten (List.map frameBytes rest), ?_⟩
                  rw [h1]
                  simp only [sessionTarget_body_irrel]
                  rw [List.append_assoc,
                    ← List.append_assoc (List.take k (frameBytes p)),
                    List.take_append_drop]
                  exact hEq
                · exact hall T (by rw [hsess]; exact List.mem_cons_of_mem _ h2)
              · intro hfalse
                simp only at hfalse
                exact absurd hfalse (by simp)

theorem foldl_stepEv_inv (evs : List Ev) :
    ∀ st : TraceState, TraceInv st → TraceInv (List.foldl stepEv st evs) := by
  induction evs with
  | nil => intro st h; exact h
  | cons e tl ih => intro st h; exact ih _ (stepEv_preserves st e h)

theorem runTrace_inv (evs : List Ev) : TraceInv (runTrace evs) := by
  apply foldl_stepEv_inv
  constructor
  · intro S hS
    simp at hS
  · intro hc
    simp [sc_tcp_sink_init] at hc

theorem lor_pow62_mod (a : Nat) (ha : a < 2 ^ 62) :
    (a ||| 2 ^ 62) % 2 ^ 62 = a := by
  apply Nat.eq_of_testBit_eq
  intro j
  rw [Nat.testBit_mod_two_pow, Nat.testBit_lor]
  by_cases hj : j < 62
  · rw [Nat.testBit_two_pow_of_ne (by omega)]
    simp [hj]
  · have haj : a < 2 ^ j :=
      lt_of_lt_of_le ha (Nat.pow_le_pow_right (by norm_num) (by omega))
    rw [Nat.testBit_eq_false_of_lt haj]
    simp [hj]

theorem relay_chunks_flatten (l : List (List Nat)) :
    run_control_forwarder (l.map RecvResult.chunk) = l.flatten := by
  induction l with
  | nil => rfl
  | cons ch tl ih => simp [run_control_forwarder, ih]

/-- Sample concrete inputs used by the witnesses. -/
def sampleSink : ScTcpSink := sc_tcp_sink_init 27183

/-- Sample timestamped packet. -/
def samplePkt : AVPacketM := { pts := some 5, isKey := false, data := [1, 2] }

/-- Sample config (no-pts) packet. -/
def sampleCfg : AVPacketM := { pts := none, isKey := false, data := [0, 0, 0, 1, 0x67] }

/-- Trace exhibiting queue residue: client 1 connects, two packets are
pushed and enqueued, the send of the first fails (client 1 gone), then
client 2 connects and is served the second packet, which was pushed
before its accept. -/
def cexEvents : List Ev :=
  [Ev.evOpen AVCodecID.h264 1280 720,
   Ev.evAccept,
   Ev.evPush { pts := some 1000, isKey := true, data := [0xAA] } true true true,
   Ev.evPush { pts := some 2000, isKey := false, data := [0xBB] } true true true,
   Ev.evServeFail 0,
   Ev.evAccept,
   Ev.evServe]

/-- The second client session of cexEvents, as computed by runTrace. -/
def cexSession : ClientSession :=
  { header := [104, 50, 54, 52, 0, 0, 5, 0, 0, 0, 2, 208]
    configFrame := []
    body := [0, 0, 0, 0, 0, 0, 7, 208, 0, 0, 0, 1, 187]
    queuedAtAccept := [{ pts := some 2000, isKey := false, data := [187] }]
    pushedSince := [] }

/-- Events for the C1 witness: open, then one client accept. -/
def c1WitnessEvents : List Ev :=
  [Ev.evOpen AVCodecID.h264 1280 720, Ev.evAccept]

/-- The single session of c1WitnessEvents. -/
def c1WitnessSession : ClientSession :=
  { header := [104, 50, 54, 52, 0, 0, 5, 0, 0, 0, 2, 208]
    configFrame := []
    body := []
    queuedAtAccept := []
    pushedSince := [] }

/-- C1 counterexample: the claim that each client's post-header bytes are
a prefix of the framed encodings of exactly the packets pushed after that
client's accept is false on the code: in cexEvents the second client's
body is the frame of a packet pushed before its accept (the queue is not
cleared between clients), while no packet at all is pushed after its
accept. -/
theorem c1_claim_false_on_trace :
    ¬ (∀ S ∈ (runTrace cexEvents).sessions,
        ∃ rest, S.body ++ rest =
          List.flatten (List.map frameBytes S.pushedSince)) := by
  intro h
  obtain ⟨rest, hrest⟩ := h cexSession (by decide)
  simp [cexSession] at hrest

/-- C1 (amended): for every event trace and every client session, the
bytes written after the 12-byte codec header and the optional cached
config frame are a prefix of the concatenation of the framed encodings of
the packets still queued when that client's accept completed followed by
the packets enqueued (successfully pushed while this client was
connected) after the accept, in push order. -/
theorem c1_body_within_session_target (evs : List Ev) (S : ClientSession)
    (hS : S ∈ (runTrace evs).sessions) :
    ∃ rest, S.body ++ rest = sessionTarget S :=
  (runTrace_inv evs).1 S hS

/-- Witness for C1 (amended) on the concrete trace c1WitnessEvents. -/
theorem c1_body_within_session_target_witness :
    ∃ rest, c1WitnessSession.body ++ rest = sessionTarget c1WitnessSession :=
  c1_body_within_session_target c1WitnessEvents c1WitnessSession (by decide)

/-- C2: pushing a packet with no pts (while not stopped, with the deep
copy succeeding) replaces any previously cached config packet with an
owned copy; a client whose accept completes while that packet is cached
receives, right after the 12-byte codec header and before any other
frame, a frame whose pts_flags is exactly bit 63 and whose payload equals
the pushed packet's payload. -/
theorem c2_config_replay (s : ScTcpSink) (c : AVPacketM) (b e : Bool)
    (hcfg : c.pts = none) (hstop : s.stopped = false) :
    (sc_tcp_sink_packet_sink_push s c true b e).2.config_packet = some c ∧
    (∀ st : TraceState, st.sink.config_packet = some c →
      st.sink.client_connected = false → st.sink.codec_sent = true →
      (stepEv st Ev.evAccept).sessions =
        { header := codecInfoBytes st.sink, configFrame := frameBytes c,
          body := [], queuedAtAccept := st.sink.queue,
          pushedSince := [] } :: st.sessions) ∧
    ptsFlagsOf c = 2 ^ 63 ∧
    frameBytes c = writeBe64 (2 ^ 63) ++ writeBe32 c.data.length ++ c.data := by
  refine ⟨?_, ?_, ?_, ?_⟩
  · unfold sc_tcp_sink_packet_sink_push
    by_cases hc : s.client_connected <;>
      by_cases hb : b <;>
        by_cases he : e <;>
          simp [hstop, hcfg, hc, hb, he]
  · intro st hcp hcli hcs
    simp [stepEv, hcli, hcs, newSession, hcp]
  · simp [ptsFlagsOf, hcfg, SC_PACKET_FLAG_CONFIG]
  · simp [frameBytes, ptsFlagsOf, hcfg, SC_PACKET_FLAG_CONFIG]

/-- Witness for C2 at concrete inputs. -/
theorem c2_config_replay_witness :
    (sc_tcp_sink_packet_sink_push sampleSink sampleCfg true true
        true).2.config_packet = some sampleCfg ∧
    (∀ st : TraceState, st.sink.config_packet = some sampleCfg →
      st.sink.client_connected = false → st.sink.codec_sent = true →
      (stepEv st Ev.evAccept).sessions =
        { header := codecInfoBytes st.sink, configFrame := frameBytes sampleCfg,
          body := [], queuedAtAccept := st.sink.queue,
          pushedSince := [] } :: st.sessions) ∧
    ptsFlagsOf sampleCfg = 2 ^ 63 ∧
    frameBytes sampleCfg =
      writeBe64 (2 ^ 63) ++ writeBe32 sampleCfg.data.length ++
        sampleCfg.data :=
  c2_config_replay sampleSink sampleCfg true true rfl rfl

/-- C3 counterexample: for the keyframe packet with pts t = 2^62 the
claim fails: pts_flags is 2^62, whose lower 62 bits are 0, not t (the
cast-and-or in sc_tcp_sink_send_packet does not protect the flag bits). -/
theorem c3_claim_false_at_large_pts :
    ¬ ((ptsFlagsOf { pts := some (2 ^ 62), isKey := true,
                      data := [0] }).testBit 62 = true ∧
       (ptsFlagsOf { pts := some (2 ^ 62), isKey := true,
                     data := [0] }).testBit 63 = false ∧
       ptsFlagsOf { pts := some (2 ^ 62), isKey := true, data := [0] } %
          2 ^ 62 = Int.toNat (2 ^ 62)) := by
  intro h
  have h3 := h.2.2
  have : ptsFlagsOf { pts := some (2 ^ 62), isKey := true, data := [0] } %
      2 ^ 62 = 0 := by decide
  rw [this] at h3
  exact absurd h3.symm (by decide)

/-- C3 (amended): for every keyframe packet whose pts t satisfies
0 ≤ t < 2^62, the wire frame is the 12-byte header, first 8 bytes the
big-endian pts_flags with bit 62 set, bit 63 clear and lower 62 bits
equal to t, last 4 bytes the big-endian payload length, followed by the
payload bytes. -/
theorem c3_keyframe_flags (p : AVPacketM) (t : Int) (hp : p.pts = some t)
    (hk : p.isKey = true) (h0 : 0 ≤ t) (h62 : t < 2 ^ 62) :
    (ptsFlagsOf p).testBit 62 = true ∧
    (ptsFlagsOf p).testBit 63 = false ∧
    ptsFlagsOf p % 2 ^ 62 = t.toNat ∧
    frameBytes p =
      writeBe64 (ptsFlagsOf p) ++ writeBe32 p.data.length ++ p.data := by
  have hu : u64ofInt t = t.toNat := by
    unfold u64ofInt
    rw [Int.emod_eq_of_lt h0 (by norm_num; omega)]
  have hflags : ptsFlagsOf p = t.toNat ||| 2 ^ 62 := by
    simp [ptsFlagsOf, hp, hk, hu, SC_PACKET_FLAG_KEY_FRAME]
  have ht : t.toNat < 2 ^ 62 := by omega
  refine ⟨?_, ?_, ?_, rfl⟩
  · rw [hflags, Nat.testBit_lor, Nat.testBit_two_pow_self]
    simp
  · rw [hflags, Nat.testBit_lor,
      Nat.testBit_eq_false_of_lt (lt_trans ht (by norm_num)),
      Nat.testBit_two_pow_of_ne (by norm_num)]
    rfl
  · rw [hflags, lor_pow62_mod _ ht]

/-- Witness for C3 (amended) at t = 1000. -/
theorem c3_keyframe_flags_witness :
    (ptsFlagsOf { pts := some 1000, isKey := true, data := [7] }).testBit 62 =
        true ∧
    (ptsFlagsOf { pts := some 1000, isKey := true, data := [7] }).testBit 63 =
        false ∧
    ptsFlagsOf { pts := some 1000, isKey := true, data := [7] } % 2 ^ 62 =
        Int.toNat 1000 ∧
    frameBytes { pts := some 1000, isKey := true, data := [7] } =
      writeBe64 (ptsFlagsOf { pts := some 1000, isKey := true, data := [7] }) ++
        writeBe32 ([7] : List Nat).length ++ [7] :=
  c3_keyframe_flags { pts := some 1000, isKey := true, data := [7] } 1000
    rfl rfl (by norm_num) (by norm_num)

/-- C4: sc_tcp_sink_packet_sink_open returns false exactly when the codec
is neither H.264 nor HEVC; for H.264 it sets codec_id to 0x68323634, for
HEVC to 0x68323635, in both cases records width and height, sets
codec_sent, and signals the condition variable. -/
theorem c4_open_contract (s : ScTcpSink) (codec : AVCodecID) (w h : Nat) :
    ((sc_tcp_sink_packet_sink_open s codec w h).1 = false ↔
      (codec ≠ AVCodecID.h264 ∧ codec ≠ AVCodecID.hevc)) ∧
    sc_tcp_sink_packet_sink_open s AVCodecID.h264 w h =
      (true, { s with codec_id := 0x68323634, width := w, height := h,
                      codec_sent := true,
                      cond_signals := s.cond_signals + 1 }) ∧
    sc_tcp_sink_packet_sink_open s AVCodecID.hevc w h =
      (true, { s with codec_id := 0x68323635, width := w, height := h,
                      codec_sent := true,
                      cond_signals := s.cond_signals + 1 }) := by
  refine ⟨?_, rfl, rfl⟩
  cases codec <;>
    simp [sc_tcp_sink_packet_sink_open]

/-- C5: a push while no client is connected and the sink is not stopped
returns success, leaves the queue unchanged, modifies at most the cached
config packet, and modifies nothing at all when the packet has a pts. -/
theorem c5_push_drop (s : ScTcpSink) (p : AVPacketM) (a b c : Bool)
    (hstop : s.stopped = false) (hcli : s.client_connected = false) :
    (sc_tcp_sink_packet_sink_push s p a b c).1 = true ∧
    (sc_tcp_sink_packet_sink_push s p a b c).2.queue = s.queue ∧
    (sc_tcp_sink_packet_sink_push s p a b c).2 =
      { s with config_packet :=
          (sc_tcp_sink_packet_sink_push s p a b c).2.config_packet } ∧
    (p.pts ≠ none → (sc_tcp_sink_packet_sink_push s p a b c).2 = s) := by
  obtain ⟨port, st0, cs, cid, w, h, cp, cc, q, sig⟩ := s
  obtain rfl : st0 = false := hstop
  obtain rfl : cc = false := hcli
  unfold sc_tcp_sink_packet_sink_push
  by_cases hp : p.pts = none <;> simp [hp]

/-- Witness for C5 at concrete inputs. -/
theorem c5_push_drop_witness :
    (sc_tcp_sink_packet_sink_push sampleSink samplePkt true true true).1 =
        true ∧
    (sc_tcp_sink_packet_sink_push sampleSink samplePkt true true
        true).2.queue = sampleSink.queue ∧
    (sc_tcp_sink_packet_sink_push sampleSink samplePkt true true true).2 =
      { sampleSink with config_packet :=
          (sc_tcp_sink_packet_sink_push sampleSink samplePkt true true
            true).2.config_packet } ∧
    (samplePkt.pts ≠ none →
      (sc_tcp_sink_packet_sink_push sampleSink samplePkt true true true).2 =
        sampleSink) :=
  c5_push_drop sampleSink samplePkt true true true rfl rfl

/-- C6: the control forwarder relays every received chunk byte-for-byte
and in order to the controller's control socket (each chunk of a recv
result is at most the 256-byte buffer and nonempty), and in particular a
client write of 0x04 0x00 0x00 0x17 0x70 yields exactly those 5 bytes
downstream. -/
theorem c6_forwarder_verbatim (chunks : List (List Nat))
    (hchunks : ∀ ch ∈ chunks,
      0 < ch.length ∧ ch.length ≤ SC_CONTROL_MSG_MAX_SIZE) :
    run_control_forwarder (chunks.map RecvResult.chunk) = chunks.flatten ∧
    run_control_forwarder [RecvResult.chunk [0x04, 0x00, 0x00, 0x17, 0x70]] =
      [0x04, 0x00, 0x00, 0x17, 0x70] :=
  ⟨relay_chunks_flatten chunks, rfl⟩

/-- Witness for C6 on the two-chunk sequence of scenario S6. -/
theorem c6_forwarder_verbatim_witness :
    run_control_forwarder
        (([[1, 2, 3], [4, 5, 6, 7, 8]] : List (List Nat)).map
          RecvResult.chunk) =
      ([[1, 2, 3], [4, 5, 6, 7, 8]] : List (List Nat)).flatten ∧
    run_control_forwarder [RecvResult.chunk [0x04, 0x00, 0x00, 0x17, 0x70]] =
      [0x04, 0x00, 0x00, 0x17, 0x70] :=
  c6_forwarder_verbatim [[1, 2, 3], [4, 5, 6, 7, 8]] (by decide)

/-- C7: the per-connection codec header is the 12 bytes codec_id, width,
height, each big-endian 32-bit; after open(H264, 1280, 720) it is
68 32 36 34 00 00 05 00 00 00 02 D0. -/
theorem c7_codec_header (s : ScTcpSink) :
    codecInfoBytes s =
      writeBe32 s.codec_id ++ writeBe32 s.width ++ writeBe32 s.height ∧
    (codecInfoBytes s).length = 12 ∧
    codecInfoBytes (sc_tcp_sink_packet_sink_open (sc_tcp_sink_init 27183)
        AVCodecID.h264 1280 720).2 =
      [0x68, 0x32, 0x36, 0x34, 0x00, 0x00, 0x05, 0x00,
       0x00, 0x00, 0x02, 0xD0] :=
  ⟨rfl, rfl, by decide⟩

/-- C8 counterexample: a push performed before open (codec_sent still
false, sink freshly initialized and not stopped) returns true, not
failure. -/
theorem c8_claim_false_before_open :
    (sc_tcp_sink_init 27183).codec_sent = false ∧
    (sc_tcp_sink_packet_sink_push (sc_tcp_sink_init 27183)
        { pts := some 5, isKey := false, data := [1, 2] }
        true true true).1 ≠ false := by
  decide

/-- C8 (amended): push never inspects codec_sent; a push before open
follows the ordinary push path, and in particular returns success when
the sink is not stopped and no client is connected. -/
theorem c8_push_before_open_succeeds (s : ScTcpSink) (p : AVPacketM)
    (a b c : Bool) (hcs : s.codec_sent = false) (hstop : s.stopped = false)
    (hcli : s.client_connected = false) :
    (sc_tcp_sink_packet_sink_push s p a b c).1 = true := by
  unfold sc_tcp_sink_packet_sink_push
  by_cases hp : p.pts = none <;> simp [hstop, hcli, hp]

/-- Witness for C8 (amended) at concrete inputs. -/
theorem c8_push_before_open_succeeds_witness :
    (sc_tcp_sink_packet_sink_push sampleSink samplePkt true true true).1 =
      true :=
  c8_push_before_open_succeeds sampleSink samplePkt true true true rfl rfl
    rfl

/-- C9: open with an unsupported codec returns false and leaves the sink
completely unchanged; in particular codec_sent stays false if it was,
codec_id, width and height keep their values, and the condition variable
signal count does not move. -/
theorem c9_open_error_atomic (s : ScTcpSink) (n w h : Nat) :
    sc_tcp_sink_packet_sink_open s (AVCodecID.other n) w h = (false, s) :=
  rfl

/-- C10: when the deep copy for the config cache fails on a no-pts packet
the previously cached config packet is already freed and config_packet
ends up null, yet push still reports success when no client is
connected. -/
theorem c10_config_cache_not_atomic (s : ScTcpSink) (p q : AVPacketM)
    (b c : Bool) (hstop : s.stopped = false)
    (hcli : s.client_connected = false) (hp : p.pts = none)
    (hq : s.config_packet = some q) :
    sc_tcp_sink_packet_sink_push s p false b c =
      (true, { s with config_packet := none }) := by
  unfold sc_tcp_sink_packet_sink_push
  simp [hstop, hcli, hp]

/-- Witness for C10: a sink with a previously cached config packet. -/
theorem c10_config_cache_not_atomic_witness :
    sc_tcp_sink_packet_sink_push
        { sampleSink with config_packet := some sampleCfg }
        { pts := none, isKey := false, data := [9] } false true true =
      (true, { { sampleSink with config_packet := some sampleCfg } with
                config_packet := none }) :=
  c10_config_cache_not_atomic
    { sampleSink with config_packet := some sampleCfg }
    { pts := none, isKey := false, data := [9] } sampleCfg true true
    rfl rfl rfl rfl
